import Mathlib

set_option maxRecDepth 4000
set_option linter.unusedVariables false

/-!
Shallow embedding of `src/problem.py` from the bike-count prediction pipeline
(`stlbnmaria/pythonfords_project`), together with proofs about the behaviour of
`get_cv`, `_encode_dates`, `_additional_date_variables`, `get_covid_data` and
`_merge_external_data`.  Pandas dataframes are modelled column-wise as
association lists from column names to value lists; the row-oriented as-of merge
is modelled over explicit row lists.  External library data (holiday calendars)
enters as parameters.
-/

/-- Timestamp of an observation (a value of the "date" column): calendar date plus
hour of day.  Real pandas timestamps carry finer precision; hour granularity is
enough to express all time-of-day behaviour of this pipeline. -/
structure Timestamp where
  year : Nat
  month : Nat
  day : Nat
  hour : Nat
deriving DecidableEq

/-- A calendar date (a python `datetime.date`). -/
structure DateOnly where
  year : Nat
  month : Nat
  day : Nat
deriving DecidableEq

/-- Model of `Timestamp.date` / `.dt.date`: drop the time of day. -/
def Timestamp.dateOnly (t : Timestamp) : DateOnly :=
  ⟨t.year, t.month, t.day⟩

/-- A cell value of a dataframe. -/
inductive Value where
  | vDate (t : Timestamp)
  | vNat (n : Nat)
  | vStr (s : String)
  | vBool (b : Bool)
  | vNull
deriving DecidableEq

/-- A pandas dataframe, modelled column-wise: the columns in order, each one a
name paired with its list of cell values (one per row). -/
abbrev DF : Type := List (String × List Value)

/-- Number of rows: the length of the first column (0 for a frame with no
columns).  Well-formed frames have every column of this length. -/
def nRows (df : DF) : Nat :=
  match df with
  | [] => 0
  | c :: _ => c.2.length

/-- Number of columns. -/
def nCols (df : DF) : Nat :=
  List.length df

/-- Well-formedness at row count n: every column holds exactly n cells. -/
def WFn (df : DF) (n : Nat) : Prop :=
  ∀ c ∈ df, c.2.length = n

instance (df : DF) (n : Nat) : Decidable (WFn df n) := by
  unfold WFn
  infer_instance

/-- Column selection `df[name]`: the cell list of the first column called
`name` (defaulting to the empty list; real pandas raises on a missing column,
and every theorem below assumes the columns it reads are present). -/
def getCol (df : DF) (name : String) : List Value :=
  ((df.find? (fun c => c.1 == name)).map (fun c => c.2)).getD []

/-- Column assignment `df.loc[:, name] = vals`: overwrite the column if it
exists, otherwise append it on the right (pandas semantics). -/
def setCol (df : DF) (name : String) (vals : List Value) : DF :=
  if df.any (fun c => c.1 == name) then
    df.map (fun c => if c.1 == name then (name, vals) else c)
  else
    df ++ [(name, vals)]

/-- Column removal `df.drop(columns=[name])`. -/
def dropCol (df : DF) (name : String) : DF :=
  df.filter (fun c => c.1 != name)

/-! ## The cross-validator `get_cv`

`get_cv` builds `TimeSeriesSplit(n_splits=8)` and a `np.random.RandomState`
from its seed, and for each rolling-origin (train, test) split yields the train
indices together with `rng.choice(test_idx, size=len(test_idx) // 3,
replace=False)`.  numpy's Mersenne-Twister bit stream is abstracted by a 64-bit
LCG; sampling without replacement is numpy's algorithm (a uniform permutation
of the population, then the first `size` entries), with each uniform draw taken
from the abstracted stream.  Every property proved below depends only on the
documented contract of `RandomState`: a deterministic stream that is a function
of the seed alone, and permutation-based sampling without replacement. -/

/-- One step of the abstracted pseudo-random bit stream. -/
def rngNext (s : Nat) : Nat :=
  (6364136223846793005 * s + 1442695040888963407) % 2 ^ 64

/-- Uniform shuffle of a list (model of `RandomState.permutation`): repeatedly
draw an index below the current length, move that element to the front, and
recurse on the rest.  The first argument is fuel, always the list length. -/
def permuteAux : Nat → Nat → List Nat → List Nat × Nat
  | 0, s, _ => ([], s)
  | n + 1, s, l =>
      let s1 := rngNext s
      let j := s1 % l.length
      let rest := permuteAux n s1 (l.eraseIdx j)
      (l.getD j 0 :: rest.1, rest.2)

/-- Model of `RandomState.permutation` on a list, threading the generator
state. -/
def permuteList (s : Nat) (l : List Nat) : List Nat × Nat :=
  permuteAux l.length s l

/-- Model of `rng.choice(l, size=k, replace=False)`: permute the population and
keep the first k entries. -/
def rngChoice (s : Nat) (l : List Nat) (k : Nat) : List Nat × Nat :=
  let p := permuteList s l
  (p.1.take k, p.2)

/-- sklearn `TimeSeriesSplit(n_splits).split` over n samples (gap 0, default
test size): errors when `n_splits + 1 > n`; otherwise fold i has train indices
`[0, start_i)` and test indices `[start_i, start_i + testSize)` with
`testSize = n / (n_splits + 1)` and `start_i = n - (n_splits - i) * testSize`. -/
def timeSeriesSplit (nSplits n : Nat) : Except String (List (List Nat × List Nat)) :=
  if n < nSplits + 1 then
    Except.error "Cannot have number of folds greater than the number of samples"
  else
    let testSize := n / (nSplits + 1)
    Except.ok ((List.range nSplits).map (fun i =>
      let start := n - (nSplits - i) * testSize
      (List.range start, (List.range testSize).map (fun k => k + start))))

/-- The loop body of `get_cv`: for each rolling split, subsample the test
partition without replacement at one-third size, threading the generator
state from fold to fold. -/
def get_cv_folds (st : Nat) : List (List Nat × List Nat) → List (List Nat × List Nat)
  | [] => []
  | (tr, te) :: rest =>
      let c := rngChoice st te (te.length / 3)
      (tr, c.1) :: get_cv_folds c.2 rest

/-- `get_cv` as a function of the number of samples: `TimeSeriesSplit(8)` folds
with each test partition subsampled by `RandomState(random_state)`. -/
def get_cvN (n randomState : Nat) : Except String (List (List Nat × List Nat)) :=
  (timeSeriesSplit 8 n).map (get_cv_folds randomState)

/-- `get_cv(X, y, random_state)` from `src/problem.py`.  `y` is accepted but
unused, exactly as in the source; `cv.split(X)` depends on `X` only through its
number of rows. -/
def get_cv (X : DF) (y : List Value) (randomState : Nat) :
    Except String (List (List Nat × List Nat)) :=
  get_cvN (nRows X) randomState

/-! ## Calendar arithmetic (model of the `.dt` accessors) -/

/-- Gregorian leap year test. -/
def isLeap (y : Nat) : Bool :=
  y % 4 == 0 && (y % 100 != 0 || y % 400 == 0)

/-- Number of days in a month of a given year. -/
def daysInMonth (y m : Nat) : Nat :=
  if m = 2 then (if isLeap y then 29 else 28)
  else if m = 4 ∨ m = 6 ∨ m = 9 ∨ m = 11 then 30
  else 31

/-- A well-formed calendar date. -/
def ValidDate (d : DateOnly) : Prop :=
  1 ≤ d.month ∧ d.month ≤ 12 ∧ 1 ≤ d.day ∧ d.day ≤ daysInMonth d.year d.month

instance (d : DateOnly) : Decidable (ValidDate d) := by
  unfold ValidDate
  infer_instance

/-- Chronological order on calendar dates (lexicographic on year, month, day). -/
def dateLe (a b : DateOnly) : Bool :=
  a.year < b.year ||
    (a.year == b.year &&
      (a.month < b.month || (a.month == b.month && a.day ≤ b.day)))

/-- Day count since 0000-03-01 in the proleptic Gregorian calendar (Hinnant's
`days_from_civil`), used for the `.dt.weekday` accessor. -/
def civilDays (y m d : Nat) : Nat :=
  let y1 := if m ≤ 2 then y - 1 else y
  let era := y1 / 400
  let yoe := y1 - era * 400
  let mp := if 3 ≤ m then m - 3 else m + 9
  let doy := (153 * mp + 2) / 5 + d - 1
  let doe := yoe * 365 + yoe / 4 - yoe / 100 + doy
  era * 146097 + doe

/-- `.dt.weekday`: Monday = 0 .. Sunday = 6 (0000-03-01 was a Wednesday). -/
def weekdayOf (y m d : Nat) : Nat :=
  (civilDays y m d + 2) % 7

/-- `.dt.year` applied to one cell (non-datetime cells never occur on the
"date" column of this pipeline). -/
def dtYear : Value → Value
  | Value.vDate t => Value.vNat t.year
  | _ => Value.vNull

/-- `.dt.month` applied to one cell. -/
def dtMonth : Value → Value
  | Value.vDate t => Value.vNat t.month
  | _ => Value.vNull

/-- `.dt.day` applied to one cell. -/
def dtDay : Value → Value
  | Value.vDate t => Value.vNat t.day
  | _ => Value.vNull

/-- `.dt.weekday` applied to one cell. -/
def dtWeekday : Value → Value
  | Value.vDate t => Value.vNat (weekdayOf t.year t.month t.day)
  | _ => Value.vNull

/-- `.dt.hour` applied to one cell. -/
def dtHour : Value → Value
  | Value.vDate t => Value.vNat t.hour
  | _ => Value.vNull

/-- `_encode_dates(X, drop_date)` from `src/problem.py`: work on a copy, add the
year / month / day / weekday / hour columns derived from the "date" column, and
optionally drop the original "date" column. -/
def encode_dates (X : DF) (drop_date : Bool) : DF :=
  let X1 := setCol X "year" ((getCol X "date").map dtYear)
  let X2 := setCol X1 "month" ((getCol X1 "date").map dtMonth)
  let X3 := setCol X2 "day" ((getCol X2 "date").map dtDay)
  let X4 := setCol X3 "weekday" ((getCol X3 "date").map dtWeekday)
  let X5 := setCol X4 "hour" ((getCol X4 "date").map dtHour)
  if drop_date then dropCol X5 "date" else X5

/-! ## Covid lockdown ranges (`get_covid_data`) -/

/-- All valid dates of a calendar year, in chronological order. -/
def datesOfYear (y : Nat) : List DateOnly :=
  (List.range 12).flatMap (fun m0 =>
    (List.range (daysInMonth y (m0 + 1))).map (fun d0 => ⟨y, m0 + 1, d0 + 1⟩))

/-- `pd.date_range(start, end)` at daily frequency, as a list of calendar
dates: every valid date d with start ≤ d ≤ end, in chronological order. -/
def dateRange (s e : DateOnly) : List DateOnly :=
  ((List.range (e.year + 1 - s.year)).flatMap (fun k => datesOfYear (s.year + k))).filter
    (fun x => dateLe s x && dateLe x e)

/-- The two lockdown ranges of `get_covid_data`, pooled.  The source takes the
union of the two `DatetimeIndex` ranges; they are disjoint and the first lies
entirely before the second, so the union is their concatenation. -/
def lockdownDates : List DateOnly :=
  dateRange ⟨2020, 10, 30⟩ ⟨2020, 12, 15⟩ ++ dateRange ⟨2021, 3, 20⟩ ⟨2021, 6, 9⟩

/-- `get_covid_data` applied to one cell of the date column:
`X_col.dt.date.isin(combined.date)` tests membership of the calendar date (day
granularity, time of day discarded) in the pooled lockdown ranges. -/
def get_covid_data (v : Value) : Value :=
  match v with
  | Value.vDate t => Value.vBool (decide (t.dateOnly ∈ lockdownDates))
  | _ => Value.vBool false

/-! ## Season, holiday and school-holiday features -/

/-- The `seasons` dict of `_additional_date_variables`. -/
def seasons : List (Nat × String) :=
  [(1, "winter"), (2, "winter"), (3, "spring"), (4, "spring"), (5, "spring"),
    (6, "summer"), (7, "summer"), (8, "summer"), (9, "autumn"), (10, "autumn"),
    (11, "autumn"), (12, "winter")]

/-- `X["date"].dt.month.map(seasons)` applied to one cell: a dict lookup on the
month (`Series.map` yields NaN on a missing key). -/
def seasonVal : Value → Value
  | Value.vDate t =>
      match seasons.find? (fun p => p.1 == t.month) with
      | some p => Value.vStr p.2
      | none => Value.vNull
  | _ => Value.vNull

/-- One entry of `SchoolHolidayDates().holidays_for_year_and_zone(year, "C")`:
the fields of the per-date record that the source reads. -/
structure SchoolRec where
  nom_vacances : String
  vacances_zone_c : Bool
deriving DecidableEq

/-- `Series.isin(dates)` on a datetime64 column, applied to one cell: pandas
coerces the `datetime.date` values to midnight timestamps and compares at full
timestamp precision, so a cell matches exactly when its time of day is 0 and
its calendar date is in the list. -/
def isinDates (ds : List DateOnly) (v : Value) : Value :=
  match v with
  | Value.vDate t => Value.vBool (decide (t.hour = 0 ∧ t.dateOnly ∈ ds))
  | _ => Value.vBool false

/-- `Series.map(dict)` on a datetime64 column with `datetime.date` keys,
applied to one cell: a timestamp can only correspond to the key holding its
calendar date, and only at midnight; every other cell maps to NaN. -/
def mapDateDict (m : List (DateOnly × String)) (v : Value) : Value :=
  match v with
  | Value.vDate t =>
      match m.find? (fun p => t.hour == 0 && p.1 == t.dateOnly) with
      | some p => Value.vStr p.2
      | none => Value.vNull
  | _ => Value.vNull

/-- The name normalisation of the school-holiday names:
`re.sub("\s+|'", "_", re.sub("[éë]", "e", name.lower()))` — lower-case,
replace accented e's, then replace each whitespace run and each apostrophe by
one underscore. -/
def normalizeHolidayName (s : String) : String :=
  let lowered := (s.toLower.data.map
    (fun c => if c = 'é' ∨ c = 'ë' ∨ c = 'É' ∨ c = 'Ë' then 'e' else c))
  let step := lowered.foldl
    (fun (acc : List Char × Bool) c =>
      if c = ' ' ∨ c = '\t' ∨ c = '\n' then
        (if acc.2 then acc.1 else acc.1 ++ ['_'], true)
      else
        (acc.1 ++ [c], false))
    ([], false)
  String.mk (step.1.map (fun c => if c = '\x27' then '_' else c))

/-- The year components present in a date column (`X["date"].dt.year.unique()`;
`unique` is modelled up to the order of first appearance, which nothing in the
source observes). -/
def yearsOf (col : List Value) : List Nat :=
  (col.filterMap (fun v =>
    match v with
    | Value.vDate t => some t.year
    | _ => none)).dedup

/-- `_additional_date_variables(X, drop_date, holiday_names)` from
`src/problem.py`.  The per-year holiday calendars are external library data
(`JoursFeries.for_year`, keyed lists of `SchoolHolidayDates`), passed here as
the parameters `pubH` and `schH`; the source pools them over the distinct years
of the date column (`dict.update` cannot observably collide since the calendars
are keyed by dates of the queried year). -/
def additional_date_variables (pubH : Nat → List DateOnly)
    (schH : Nat → List (DateOnly × SchoolRec)) (X : DF)
    (drop_date : Bool) (holiday_names : Bool) : DF :=
  let X1 := setCol X "season" ((getCol X "date").map seasonVal)
  let years := yearsOf (getCol X1 "date")
  let public_holidays := years.flatMap pubH
  let school_holidays := years.flatMap schH
  let X2 := setCol X1 "public_holiday"
    ((getCol X1 "date").map (isinDates public_holidays))
  let X3 :=
    if holiday_names then
      setCol X2 "school_holiday_name"
        ((getCol X2 "date").map (mapDateDict
          ((school_holidays.filter (fun p => p.2.vacances_zone_c)).map
            (fun p => (p.1, normalizeHolidayName p.2.nom_vacances)))))
    else
      setCol X2 "school_holiday"
        ((getCol X2 "date").map (isinDates
          ((school_holidays.filter (fun p => p.2.vacances_zone_c)).map
            (fun p => p.1))))
  let X4 := setCol X3 "covid_lockdown" ((getCol X3 "date").map get_covid_data)
  if drop_date then dropCol X4 "date" else X4

/-! ## The as-of merge `_merge_external_data`

The merge is row-oriented, so it is modelled over explicit row lists: a row of
`X` is its date (abstracted to a natural number — only the order of the
timeline matters to the join) paired with the rest of its payload, and a row of
the external table is a date paired with its weather payload.  The external csv
content is a parameter.  `sort_values` is a comparison sort; ties in the date
sort are unobservable (the as-of match depends only on the date value) and the
final sort key `orig_index` is duplicate-free, so the stable `insertionSort`
used here computes the same frame as any other sorting algorithm. -/

/-- A row of the feature table: date plus payload. -/
abbrev XRow : Type := Nat × Nat

/-- `X["orig_index"] = np.arange(X.shape[0])`: tag each row with its position,
starting at i. -/
def tagWith (i : Nat) : List XRow → List (XRow × Nat)
  | [] => []
  | r :: rs => (r, i) :: tagWith (i + 1) rs

/-- The match of `pd.merge_asof(..., on="date")` (backward direction) for one
left date d against a date-sorted right table: the value of the last right row
with date at most d, if any. -/
def asofLookup (sortedExt : List (Nat × Nat)) (d : Nat) : Option Nat :=
  ((sortedExt.filter (fun e => e.1 ≤ d)).getLast?).map (fun e => e.2)

/-- `_merge_external_data(X)` from `src/problem.py`, with the external csv
content `ext` as a parameter: copy X, record the original positions, sort both
tables by date, as-of join, sort back by original position and drop the
position key.  A row's external payload is `none` where pandas leaves NaN. -/
def merge_external_data (ext : List (Nat × Nat)) (X : List XRow) :
    List (XRow × Option Nat) :=
  let tagged := tagWith 0 X
  let sortedX := List.insertionSort (fun a b : XRow × Nat => a.1.1 ≤ b.1.1) tagged
  let sortedExt := List.insertionSort (fun a b : Nat × Nat => a.1 ≤ b.1) ext
  let merged := sortedX.map (fun p => ((p.1, asofLookup sortedExt p.1.1), p.2))
  let back := List.insertionSort
    (fun a b : (XRow × Option Nat) × Nat => a.2 ≤ b.2) merged
  back.map (fun p => p.1)

/-! ## Object-level model (for the immutable-transform contract)

pandas frames are mutable objects: `.loc[:, c] = v` and `del X[c]` update a
frame in place, while `copy`, `drop`, `sort_values` and `merge_asof` allocate
fresh frames.  To state that the three transforms leave their argument object
untouched, they are re-traced statement by statement over an explicit heap of
objects; the pure functions above give the values computed. -/

/-- A heap of mutable objects of type α, addressed by allocation order. -/
structure PState (α : Type) where
  objs : List α

/-- Allocate a fresh object, returning its address. -/
def alloc {α : Type} (σ : PState α) (v : α) : PState α × Nat :=
  (⟨σ.objs ++ [v]⟩, σ.objs.length)

/-- Read the object at an address (with a default for dangling addresses,
which never arise below). -/
def readObj {α : Type} (σ : PState α) (i : Nat) (dflt : α) : α :=
  σ.objs.getD i dflt

/-- Overwrite the object at an address in place. -/
def writeObj {α : Type} (σ : PState α) (i : Nat) (v : α) : PState α :=
  ⟨σ.objs.set i v⟩

/-- `_encode_dates` at the object level: read the argument, allocate the copy,
perform the five in-place column assignments on the copy, and either allocate
the frame returned by `drop` or return the copy itself. -/
def encodeDatesH (σ : PState DF) (x : Nat) (drop_date : Bool) : PState DF × Nat :=
  let p1 := alloc σ (readObj σ x [])
  let σ1 := p1.1
  let c := p1.2
  let σ2 := writeObj σ1 c
    (setCol (readObj σ1 c []) "year" ((getCol (readObj σ1 c []) "date").map dtYear))
  let σ3 := writeObj σ2 c
    (setCol (readObj σ2 c []) "month" ((getCol (readObj σ2 c []) "date").map dtMonth))
  let σ4 := writeObj σ3 c
    (setCol (readObj σ3 c []) "day" ((getCol (readObj σ3 c []) "date").map dtDay))
  let σ5 := writeObj σ4 c
    (setCol (readObj σ4 c []) "weekday" ((getCol (readObj σ4 c []) "date").map dtWeekday))
  let σ6 := writeObj σ5 c
    (setCol (readObj σ5 c []) "hour" ((getCol (readObj σ5 c []) "date").map dtHour))
  if drop_date then alloc σ6 (dropCol (readObj σ6 c []) "date") else (σ6, c)

/-- `_additional_date_variables` at the object level: allocate the copy, four
in-place column assignments on the copy, optional fresh frame from `drop`. -/
def additionalDateVariablesH (pubH : Nat → List DateOnly)
    (schH : Nat → List (DateOnly × SchoolRec)) (σ : PState DF) (x : Nat)
    (drop_date : Bool) (holiday_names : Bool) : PState DF × Nat :=
  let p1 := alloc σ (readObj σ x [])
  let σ1 := p1.1
  let c := p1.2
  let σ2 := writeObj σ1 c
    (setCol (readObj σ1 c []) "season" ((getCol (readObj σ1 c []) "date").map seasonVal))
  let years := yearsOf (getCol (readObj σ2 c []) "date")
  let public_holidays := years.flatMap pubH
  let school_holidays := years.flatMap schH
  let σ3 := writeObj σ2 c
    (setCol (readObj σ2 c []) "public_holiday"
      ((getCol (readObj σ2 c []) "date").map (isinDates public_holidays)))
  let σ4 :=
    if holiday_names then
      writeObj σ3 c
        (setCol (readObj σ3 c []) "school_holiday_name"
          ((getCol (readObj σ3 c []) "date").map (mapDateDict
            ((school_holidays.filter (fun p => p.2.vacances_zone_c)).map
              (fun p => (p.1, normalizeHolidayName p.2.nom_vacances))))))
    else
      writeObj σ3 c
        (setCol (readObj σ3 c []) "school_holiday"
          ((getCol (readObj σ3 c []) "date").map (isinDates
            ((school_holidays.filter (fun p => p.2.vacances_zone_c)).map
              (fun p => p.1)))))
  let σ5 := writeObj σ4 c
    (setCol (readObj σ4 c []) "covid_lockdown"
      ((getCol (readObj σ4 c []) "date").map get_covid_data))
  if drop_date then alloc σ5 (dropCol (readObj σ5 c []) "date") else (σ5, c)

/-- The successive shapes a frame object takes inside `_merge_external_data`. -/
inductive MObj where
  | plain (rows : List XRow)
  | tagged (rows : List (XRow × Nat))
  | merged (rows : List ((XRow × Option Nat) × Nat))
  | final (rows : List (XRow × Option Nat))
deriving DecidableEq

/-- The row list of a plain frame object (the pipeline only ever passes a plain
feature frame in). -/
def MObj.plainRows : MObj → List XRow
  | MObj.plain l => l
  | _ => []

/-- `_merge_external_data` at the object level: read the csv into a fresh
frame, copy X, add the position column in place, allocate the two sorted views
and the merged frame, sort back into a fresh frame and delete the position
column from it in place. -/
def mergeExternalDataH (σ : PState MObj) (x : Nat) (ext : List (Nat × Nat)) :
    PState MObj × Nat :=
  let pExt := alloc σ (MObj.plain ext)
  let σ1 := pExt.1
  let pc := alloc σ1 (readObj σ1 x (MObj.plain []))
  let σ2 := pc.1
  let c := pc.2
  let rows := (readObj σ2 c (MObj.plain [])).plainRows
  let σ3 := writeObj σ2 c (MObj.tagged (tagWith 0 rows))
  let tagged := match readObj σ3 c (MObj.plain []) with
    | MObj.tagged l => l
    | _ => []
  let pSortX := alloc σ3
    (MObj.tagged (List.insertionSort (fun a b : XRow × Nat => a.1.1 ≤ b.1.1) tagged))
  let σ4 := pSortX.1
  let extRows := (readObj σ4 pExt.2 (MObj.plain [])).plainRows
  let sortedExt := List.insertionSort (fun a b : Nat × Nat => a.1 ≤ b.1) extRows
  let sortedX := match readObj σ4 pSortX.2 (MObj.plain []) with
    | MObj.tagged l => l
    | _ => []
  let pMerge := alloc σ4
    (MObj.merged (sortedX.map (fun p => ((p.1, asofLookup sortedExt p.1.1), p.2))))
  let σ5 := pMerge.1
  let mergedRows := match readObj σ5 pMerge.2 (MObj.plain []) with
    | MObj.merged l => l
    | _ => []
  let pBack := alloc σ5
    (MObj.merged (List.insertionSort
      (fun a b : (XRow × Option Nat) × Nat => a.2 ≤ b.2) mergedRows))
  let σ6 := pBack.1
  let backRows := match readObj σ6 pBack.2 (MObj.plain []) with
    | MObj.merged l => l
    | _ => []
  let σ7 := writeObj σ6 pBack.2 (MObj.final (backRows.map (fun p => p.1)))
  (σ7, pBack.2)

/-! ## Lemmas: the sampler and the cross-validator -/

theorem cons_eraseIdx_perm :
    ∀ (l : List Nat) (j : Nat), j < l.length →
      List.Perm (l.getD j 0 :: l.eraseIdx j) l
  | [], j, h => by simp at h
  | x :: xs, 0, _ => by simp
  | x :: xs, j + 1, h => by
      have hj : j < xs.length := by simpa using h
      have ih := cons_eraseIdx_perm xs j hj
      simp only [List.getD_cons_succ, List.eraseIdx_cons_succ]
      exact (List.Perm.swap x (xs.getD j 0) (xs.eraseIdx j)).trans (ih.cons x)

theorem permuteAux_perm :
    ∀ (n s : Nat) (l : List Nat), n = l.length →
      List.Perm (permuteAux n s l).1 l
  | 0, s, l, h => by
      have : l = [] := List.length_eq_zero.mp h.symm
      subst this
      simp [permuteAux]
  | n + 1, s, l, h => by
      have hpos : 0 < l.length := by omega
      have hj : rngNext s % l.length < l.length := Nat.mod_lt _ hpos
      have hlen : n = (l.eraseIdx (rngNext s % l.length)).length := by
        have := List.length_eraseIdx_add_one hj
        omega
      have ih := permuteAux_perm n (rngNext s) (l.eraseIdx (rngNext s % l.length)) hlen
      simp only [permuteAux]
      exact (ih.cons (l.getD (rngNext s % l.length) 0)).trans
        (cons_eraseIdx_perm l (rngNext s % l.length) hj)

theorem permuteList_perm (s : Nat) (l : List Nat) :
    List.Perm (permuteList s l).1 l :=
  permuteAux_perm l.length s l rfl

theorem rngChoice_length (s : Nat) (l : List Nat) (k : Nat) (h : k ≤ l.length) :
    (rngChoice s l k).1.length = k := by
  simp only [rngChoice, List.length_take, (permuteList_perm s l).length_eq]
  omega

theorem rngChoice_nodup (s : Nat) (l : List Nat) (k : Nat) (h : l.Nodup) :
    (rngChoice s l k).1.Nodup :=
  (((permuteList_perm s l).nodup_iff.mpr h).sublist (List.take_sublist k _))

theorem rngChoice_subset (s : Nat) (l : List Nat) (k : Nat) :
    (rngChoice s l k).1 ⊆ l :=
  fun a ha => (permuteList_perm s l).mem_iff.mp (List.take_subset _ _ ha)

theorem get_cv_folds_spec :
    ∀ (l : List (List Nat × List Nat)) (st : Nat),
      (∀ sp ∈ l, sp.2.Nodup) →
      List.Forall₂ (fun f sp => f.1 = sp.1 ∧ f.2.length = sp.2.length / 3 ∧
        f.2.Nodup ∧ f.2 ⊆ sp.2 ∧ (sp.2.length < 3 → f.2 = []))
        (get_cv_folds st l) l
  | [], st, _ => List.Forall₂.nil
  | (tr, te) :: rest, st, h => by
      have hte : te.Nodup := h (tr, te) (List.mem_cons_self _ _)
      refine List.Forall₂.cons ⟨rfl, ?_, ?_, ?_, ?_⟩
        (get_cv_folds_spec rest _ (fun sp hsp => h sp (List.mem_cons_of_mem _ hsp)))
      · exact rngChoice_length st te (te.length / 3) (Nat.div_le_self _ _)
      · exact rngChoice_nodup st te (te.length / 3) hte
      · exact rngChoice_subset st te (te.length / 3)
      · intro hlt
        apply List.length_eq_zero.mp
        rw [rngChoice_length st te (te.length / 3) (Nat.div_le_self _ _)]
        exact Nat.div_eq_of_lt hlt

theorem get_cv_folds_mem :
    ∀ (l : List (List Nat × List Nat)) (st : Nat) (f : List Nat × List Nat),
      f ∈ get_cv_folds st l → ∃ sp ∈ l, f.1 = sp.1 ∧ f.2 ⊆ sp.2
  | [], st, f, h => by simp [get_cv_folds] at h
  | (tr, te) :: rest, st, f, h => by
      simp only [get_cv_folds, List.mem_cons] at h
      rcases h with h | h
      · subst h
        exact ⟨(tr, te), List.mem_cons_self _ _, rfl, rngChoice_subset _ _ _⟩
      · obtain ⟨sp, hsp, hf⟩ := get_cv_folds_mem rest _ f h
        exact ⟨sp, List.mem_cons_of_mem _ hsp, hf⟩

theorem timeSeriesSplit_ok (n : Nat) (h : 9 ≤ n) :
    timeSeriesSplit 8 n = Except.ok ((List.range 8).map (fun i =>
      (List.range (n - (8 - i) * (n / 9)),
        (List.range (n / 9)).map (fun k => k + (n - (8 - i) * (n / 9)))))) := by
  unfold timeSeriesSplit
  rw [if_neg (by omega)]

theorem timeSeriesSplit_test_nodup (n : Nat) :
    ∀ sp ∈ (List.range 8).map (fun i =>
      (List.range (n - (8 - i) * (n / 9)),
        (List.range (n / 9)).map (fun k => k + (n - (8 - i) * (n / 9))))), sp.2.Nodup := by
  intro sp hsp
  simp only [List.mem_map, List.mem_range] at hsp
  obtain ⟨i, hi, rfl⟩ := hsp
  exact (List.nodup_range _).map (fun a b hab => by omega)

/-- C1: for every feature table X and target y (X large enough for the
splitter to produce its folds at all), `get_cv` yields exactly 8
(train, test) folds; pairing them with the folds of the underlying
rolling-origin splitter, each yielded test fold has size ⌊m / 3⌋ where m is the
size of that fold's test partition, it is a duplicate-free subset of that
partition (sampling without replacement), and it is empty whenever the
partition has fewer than 3 elements. -/
theorem get_cv_c1 (X : DF) (y : List Value) (s : Nat) (h : 9 ≤ nRows X) :
    ∃ folds splits,
      get_cv X y s = Except.ok folds ∧
      timeSeriesSplit 8 (nRows X) = Except.ok splits ∧
      folds.length = 8 ∧
      List.Forall₂ (fun f sp => f.1 = sp.1 ∧ f.2.length = sp.2.length / 3 ∧
        f.2.Nodup ∧ f.2 ⊆ sp.2 ∧ (sp.2.length < 3 → f.2 = [])) folds splits := by
  refine ⟨_, _, ?_, timeSeriesSplit_ok (nRows X) h, ?_,
    get_cv_folds_spec _ s (timeSeriesSplit_test_nodup (nRows X))⟩
  · show get_cvN (nRows X) s = _
    unfold get_cvN
    rw [timeSeriesSplit_ok (nRows X) h]
    rfl
  · rw [(get_cv_folds_spec _ s (timeSeriesSplit_test_nodup (nRows X))).length_eq]
    simp

theorem get_cv_c1_witness :
    ∃ folds splits,
      get_cv [("date", List.replicate 9 Value.vNull)] [] 0 = Except.ok folds ∧
      timeSeriesSplit 8 (nRows [("date", List.replicate 9 Value.vNull)]) =
        Except.ok splits ∧
      folds.length = 8 ∧
      List.Forall₂ (fun f sp => f.1 = sp.1 ∧ f.2.length = sp.2.length / 3 ∧
        f.2.Nodup ∧ f.2 ⊆ sp.2 ∧ (sp.2.length < 3 → f.2 = [])) folds splits :=
  get_cv_c1 [("date", List.replicate 9 Value.vNull)] [] 0 (by decide)

/-- C2: `get_cv` is deterministic in its seed: its result is a function of the
row count of X and `random_state` alone — neither y nor the cell contents are
consulted — so two invocations with the same seed over the same data (or any
data of equal row count) yield identical fold sequences. -/
theorem get_cv_c2 (X X' : DF) (y y' : List Value) (s : Nat)
    (h : nRows X = nRows X') :
    get_cv X y s = get_cv X' y' s := by
  unfold get_cv
  rw [h]

theorem get_cv_c2_witness :
    get_cv [("date", [Value.vNat 0])] [] 7 =
      get_cv [("other", [Value.vBool true])] [Value.vNull] 7 :=
  get_cv_c2 [("date", [Value.vNat 0])] [("other", [Value.vBool true])] []
    [Value.vNull] 7 (by decide)

/-- C3: every fold yielded by `get_cv` has disjoint train and test index sets,
and every train index is strictly smaller than every test index of the same
fold (over data sorted by date, train rows precede test rows in time). -/
theorem get_cv_c3 (X : DF) (y : List Value) (s : Nat)
    (folds : List (List Nat × List Nat)) (h : get_cv X y s = Except.ok folds) :
    ∀ f ∈ folds, List.Disjoint f.1 f.2 ∧ ∀ a ∈ f.1, ∀ b ∈ f.2, a < b := by
  have h9 : 9 ≤ nRows X := by
    by_contra h9
    unfold get_cv get_cvN timeSeriesSplit at h
    rw [if_pos (by omega)] at h
    simp [Except.map] at h
  unfold get_cv get_cvN at h
  rw [timeSeriesSplit_ok (nRows X) h9] at h
  simp only [Except.map, Except.ok.injEq] at h
  subst h
  intro f hf
  obtain ⟨sp, hsp, hf1, hf2⟩ := get_cv_folds_mem _ s f hf
  simp only [List.mem_map, List.mem_range] at hsp
  obtain ⟨i, hi, rfl⟩ := hsp
  have horder : ∀ a ∈ f.1, ∀ b ∈ f.2, a < b := by
    intro a ha b hb
    rw [hf1] at ha
    have ha2 := List.mem_range.mp ha
    have hb2 := hf2 hb
    simp only [List.mem_map, List.mem_range] at hb2
    obtain ⟨k, hk, rfl⟩ := hb2
    omega
  exact ⟨fun a ha hb => absurd (horder a ha a hb) (lt_irrefl a), horder⟩

theorem get_cv_c3_witness :
    List.Disjoint [0, 1, 2] [4] ∧ (2 : Nat) < 4 :=
  have h := get_cv_c3 [("date", List.replicate 27 Value.vNull)] [] 0
    [([0, 1, 2], [4]), ([0, 1, 2, 3, 4, 5], [6]),
      ([0, 1, 2, 3, 4, 5, 6, 7, 8], [10]),
      ([0, 1, 2, 3, 4, 5, 6, 7, 8, 9, 10, 11], [12]),
      ([0, 1, 2, 3, 4, 5, 6, 7, 8, 9, 10, 11, 12, 13, 14], [15]),
      ([0, 1, 2, 3, 4, 5, 6, 7, 8, 9, 10, 11, 12, 13, 14, 15, 16, 17], [19]),
      ([0, 1, 2, 3, 4, 5, 6, 7, 8, 9, 10, 11, 12, 13, 14, 15, 16, 17, 18, 19, 20], [22]),
      ([0, 1, 2, 3, 4, 5, 6, 7, 8, 9, 10, 11, 12, 13, 14, 15, 16, 17, 18, 19, 20, 21, 22, 23], [24])]
    (by rfl) ([0, 1, 2], [4]) (by decide)
  ⟨h.1, h.2 2 (by decide) 4 (by decide)⟩

/-! ## Lemmas: the as-of merge -/

theorem tagWith_map_fst : ∀ (i : Nat) (l : List XRow),
    (tagWith i l).map Prod.fst = l
  | _, [] => rfl
  | i, r :: rs => by
      simp only [tagWith, List.map_cons, tagWith_map_fst (i + 1) rs]

theorem tagWith_map_snd : ∀ (i : Nat) (l : List XRow),
    (tagWith i l).map Prod.snd = List.range' i l.length
  | _, [] => rfl
  | i, r :: rs => by
      simp only [tagWith, List.map_cons, tagWith_map_snd (i + 1) rs,
        List.length_cons, List.range'_succ]

theorem tagWith_map_val {β : Type} (g : XRow → β) : ∀ (i : Nat) (l : List XRow),
    (tagWith i l).map (fun p => g p.1) = l.map g
  | _, [] => rfl
  | i, r :: rs => by
      simp only [tagWith, List.map_cons, tagWith_map_val g (i + 1) rs]

theorem insertionSort_by_key_eq (L M : List ((XRow × Option Nat) × Nat))
    (hperm : List.Perm M L) (hsorted : L.Pairwise (fun a b => a.2 < b.2)) :
    List.insertionSort (fun a b => a.2 ≤ b.2) M = L := by
  haveI : IsTotal ((XRow × Option Nat) × Nat) (fun a b => a.2 ≤ b.2) :=
    ⟨fun a b => Nat.le_total _ _⟩
  haveI : IsTrans ((XRow × Option Nat) × Nat) (fun a b => a.2 ≤ b.2) :=
    ⟨fun a b c hab hbc => Nat.le_trans hab hbc⟩
  haveI : IsAntisymm ((XRow × Option Nat) × Nat) (fun a b => a.2 < b.2) :=
    ⟨fun a b h1 h2 => absurd (Nat.lt_trans h1 h2) (Nat.lt_irrefl _)⟩
  have hperm2 : List.Perm (List.insertionSort (fun a b => a.2 ≤ b.2) M) L :=
    (List.perm_insertionSort _ M).trans hperm
  have hnodup : (List.insertionSort (fun a b => a.2 ≤ b.2) M).Pairwise
      (fun a b => a.2 ≠ b.2) := by
    have hL : L.Pairwise (fun a b => a.2 ≠ b.2) :=
      hsorted.imp (fun h => Nat.ne_of_lt h)
    exact (hperm2.pairwise_iff (fun h he => h (he.symm))).mpr hL
  have hstrict : (List.insertionSort (fun a b => a.2 ≤ b.2) M).Pairwise
      (fun a b => a.2 < b.2) :=
    ((List.sorted_insertionSort _ M).and hnodup).imp
      (fun h => Nat.lt_of_le_of_ne h.1 h.2)
  exact List.eq_of_perm_of_sorted hperm2 hstrict hsorted

theorem merge_external_data_eq (ext : List (Nat × Nat)) (X : List XRow) :
    merge_external_data ext X = X.map (fun r =>
      (r, asofLookup (List.insertionSort (fun a b : Nat × Nat => a.1 ≤ b.1) ext) r.1)) := by
  have hback : List.insertionSort
      (fun a b : (XRow × Option Nat) × Nat => a.2 ≤ b.2)
      ((List.insertionSort (fun a b : XRow × Nat => a.1.1 ≤ b.1.1) (tagWith 0 X)).map
        (fun p => ((p.1, asofLookup (List.insertionSort
          (fun a b : Nat × Nat => a.1 ≤ b.1) ext) p.1.1), p.2))) =
      (tagWith 0 X).map (fun p => ((p.1, asofLookup (List.insertionSort
        (fun a b : Nat × Nat => a.1 ≤ b.1) ext) p.1.1), p.2)) := by
    apply insertionSort_by_key_eq
    · exact (List.perm_insertionSort _ _).map _
    · rw [List.pairwise_map]
      have h1 := List.pairwise_lt_range' 0 X.length
      rw [← tagWith_map_snd 0 X, List.pairwise_map] at h1
      exact h1.imp (fun h => h)
  simp only [merge_external_data]
  rw [hback, List.map_map]
  exact tagWith_map_val (fun r => (r, asofLookup (List.insertionSort
    (fun a b : Nat × Nat => a.1 ≤ b.1) ext) r.1)) 0 X

theorem asofLookup_none_iff (s : List (Nat × Nat)) (d : Nat) :
    asofLookup s d = none ↔ ∀ e ∈ s, ¬ e.1 ≤ d := by
  unfold asofLookup
  rw [Option.map_eq_none', List.getLast?_eq_none_iff, List.filter_eq_nil_iff]
  simp

/-- C4: for every input table X, `_merge_external_data` returns exactly as many
rows as X, in the same order as the input (the original row is the first
component of each output row, and mapping back to it recovers X exactly),
regardless of the density of the external table; and a row's external payload
is null exactly when the external table holds no observation at or before that
row's timestamp. -/
theorem merge_external_data_c4 (ext : List (Nat × Nat)) (X : List XRow) :
    (merge_external_data ext X).length = X.length ∧
    (merge_external_data ext X).map Prod.fst = X ∧
    ∀ p ∈ merge_external_data ext X, (p.2 = none ↔ ∀ e ∈ ext, ¬ e.1 ≤ p.1.1) := by
  refine ⟨?_, ?_, ?_⟩
  · rw [merge_external_data_eq]
    simp
  · rw [merge_external_data_eq, List.map_map]
    exact List.map_id X
  · intro p hp
    rw [merge_external_data_eq] at hp
    obtain ⟨r, hr, rfl⟩ := List.mem_map.mp hp
    refine (asofLookup_none_iff _ _).trans ⟨fun h e he => h e ?_, fun h e he => h e ?_⟩
    · exact (List.mem_insertionSort _).mpr he
    · exact (List.mem_insertionSort _).mp he

theorem merge_external_data_c4_witness :
    (merge_external_data [(5, 100), (10, 200)] [(12, 1), (3, 2), (7, 3)]).length =
      [((12 : Nat), (1 : Nat)), (3, 2), (7, 3)].length ∧
    (merge_external_data [(5, 100), (10, 200)] [(12, 1), (3, 2), (7, 3)]).map Prod.fst =
      [(12, 1), (3, 2), (7, 3)] ∧
    ∀ p ∈ merge_external_data [(5, 100), (10, 200)] [(12, 1), (3, 2), (7, 3)],
      (p.2 = none ↔ ∀ e ∈ [((5 : Nat), (100 : Nat)), (10, 200)], ¬ e.1 ≤ p.1.1) :=
  merge_external_data_c4 [(5, 100), (10, 200)] [(12, 1), (3, 2), (7, 3)]

/-! ## Lemmas: the column model -/

theorem map_fst_setCol (df : DF) (name : String) (vals : List Value) :
    (setCol df name vals).map Prod.fst =
      if df.any (fun c => c.1 == name) then df.map Prod.fst
      else df.map Prod.fst ++ [name] := by
  unfold setCol
  by_cases h : df.any (fun c => c.1 == name)
  · rw [if_pos h, if_pos h, List.map_map]
    apply List.map_congr_left
    intro c hc
    by_cases hc1 : (c.1 == name) = true
    · simp only [Function.comp_apply, if_pos hc1]
      exact (beq_iff_eq.mp hc1).symm
    · simp only [Function.comp_apply, if_neg hc1]
  · rw [if_neg h, if_neg h, List.map_append]
    rfl

theorem WFn_setCol (df : DF) (name : String) (vals : List Value) (n : Nat)
    (hw : WFn df n) (hv : vals.length = n) : WFn (setCol df name vals) n := by
  intro c hc
  unfold setCol at hc
  by_cases h : df.any (fun c => c.1 == name)
  · rw [if_pos h] at hc
    obtain ⟨c0, hc0, rfl⟩ := List.mem_map.mp hc
    by_cases h1 : (c0.1 == name) = true
    · simpa [h1] using hv
    · simpa [h1] using hw c0 hc0
  · rw [if_neg h] at hc
    rcases List.mem_append.mp hc with hc2 | hc2
    · exact hw c hc2
    · rw [List.mem_singleton.mp hc2]
      exact hv

theorem WFn_dropCol (df : DF) (name : String) (n : Nat) (hw : WFn df n) :
    WFn (dropCol df name) n :=
  fun c hc => hw c (List.mem_of_mem_filter hc)

theorem getCol_length_of_WFn (df : DF) (name : String) (n : Nat) (hw : WFn df n)
    (h : name ∈ df.map Prod.fst) : (getCol df name).length = n := by
  obtain ⟨c, hc, rfl⟩ := List.mem_map.mp h
  cases hfind : df.find? (fun x => x.1 == c.1) with
  | none =>
      rw [List.find?_eq_none] at hfind
      exact absurd (by simp) (hfind c hc)
  | some c0 =>
      have hc0 : c0 ∈ df := List.mem_of_find?_eq_some hfind
      unfold getCol
      rw [hfind]
      exact hw c0 hc0

theorem mem_fst_setCol_self (df : DF) (name : String) (vals : List Value) :
    name ∈ (setCol df name vals).map Prod.fst := by
  rw [map_fst_setCol]
  by_cases h : df.any (fun c => c.1 == name)
  · rw [if_pos h]
    obtain ⟨c, hc, hp⟩ := List.any_eq_true.mp h
    exact List.mem_map.mpr ⟨c, hc, beq_iff_eq.mp hp⟩
  · rw [if_neg h]
    exact List.mem_append.mpr (Or.inr (List.mem_singleton.mpr rfl))

theorem mem_fst_setCol_of_mem (df : DF) (name nm : String) (vals : List Value)
    (h : nm ∈ df.map Prod.fst) : nm ∈ (setCol df name vals).map Prod.fst := by
  rw [map_fst_setCol]
  by_cases hany : df.any (fun c => c.1 == name)
  · rwa [if_pos hany]
  · rw [if_neg hany]
    exact List.mem_append.mpr (Or.inl h)

theorem count_fst_setCol (df : DF) (name nm : String) (vals : List Value)
    (h : name ≠ nm) :
    ((setCol df name vals).map Prod.fst).count nm = (df.map Prod.fst).count nm := by
  rw [map_fst_setCol]
  by_cases hany : df.any (fun c => c.1 == name)
  · rw [if_pos hany]
  · rw [if_neg hany, List.count_append]
    have hne : (name == nm) = false := by simpa using h
    simp [List.count_cons, hne]

theorem getCol_setCol_self (df : DF) (name : String) (vals : List Value) :
    getCol (setCol df name vals) name = vals := by
  unfold getCol setCol
  by_cases h : df.any (fun c => c.1 == name)
  · rw [if_pos h, List.find?_map]
    have hpred : ((fun c : String × List Value => c.1 == name) ∘
        (fun c : String × List Value => if c.1 == name then (name, vals) else c)) =
        (fun c : String × List Value => c.1 == name) := by
      funext c
      by_cases h1 : c.1 = name
      · simp [h1]
      · simp [h1]
    rw [hpred]
    obtain ⟨c, hc, hp⟩ := List.any_eq_true.mp h
    cases hfind : df.find? (fun c : String × List Value => c.1 == name) with
    | none =>
        rw [List.find?_eq_none] at hfind
        exact absurd hp (hfind c hc)
    | some c0 =>
        have hp0 := List.find?_some hfind
        simp only [beq_iff_eq] at hp0
        simp [Option.map, hp0]
  · rw [if_neg h, List.find?_append]
    have hnone : df.find? (fun c : String × List Value => c.1 == name) = none := by
      rw [List.find?_eq_none]
      intro a ha
      intro hp
      exact absurd (List.any_eq_true.mpr ⟨a, ha, hp⟩) h
    rw [hnone]
    simp [List.find?]

theorem getCol_setCol_ne (df : DF) (name nm : String) (vals : List Value)
    (h : name ≠ nm) : getCol (setCol df name vals) nm = getCol df nm := by
  unfold getCol setCol
  by_cases hany : df.any (fun c => c.1 == name)
  · rw [if_pos hany, List.find?_map]
    have hpred : ((fun c : String × List Value => c.1 == nm) ∘
        (fun c : String × List Value => if c.1 == name then (name, vals) else c)) =
        (fun c : String × List Value => c.1 == nm) := by
      funext c
      by_cases h1 : c.1 = name
      · simp [h1]
      · simp [h1]
    rw [hpred]
    cases hfind : df.find? (fun c : String × List Value => c.1 == nm) with
    | none => rfl
    | some c0 =>
        have hp0 := List.find?_some hfind
        simp only [beq_iff_eq] at hp0
        have hne : ¬ c0.1 = name := by
          rw [hp0]
          exact fun he => h he.symm
        simp [Option.map, hne]
  · rw [if_neg hany, List.find?_append]
    have hlast : List.find? (fun c : String × List Value => c.1 == nm) [(name, vals)] = none := by
      have hne : (name == nm) = false := by simpa using h
      simp [List.find?, hne]
    rw [hlast]
    cases df.find? (fun c : String × List Value => c.1 == nm) with
    | none => rfl
    | some c0 => rfl

theorem find?_filter_ne (df : DF) (name nm : String) (h : name ≠ nm) :
    (df.filter (fun c => c.1 != name)).find? (fun c => c.1 == nm) =
      df.find? (fun c => c.1 == nm) := by
  induction df with
  | nil => rfl
  | cons c cs ih =>
      by_cases h1 : c.1 = nm
      · have h2 : (c.1 != name) = true := by
          simp only [bne_iff_ne, ne_eq, h1]
          exact fun he => h he.symm
        rw [@List.filter_cons_of_pos _ (fun c => c.1 != name) c cs h2,
          List.find?_cons_of_pos _ (by simp [h1]),
          List.find?_cons_of_pos _ (by simp [h1])]
      · by_cases h2 : (c.1 != name) = true
        · rw [@List.filter_cons_of_pos _ (fun c => c.1 != name) c cs h2,
            List.find?_cons_of_neg _ (by simp [h1]),
            List.find?_cons_of_neg _ (by simp [h1])]
          exact ih
        · rw [@List.filter_cons_of_neg _ (fun c => c.1 != name) c cs (by simpa using h2),
            List.find?_cons_of_neg _ (by simp [h1])]
          exact ih

theorem getCol_dropCol_ne (df : DF) (name nm : String) (h : name ≠ nm) :
    getCol (dropCol df name) nm = getCol df nm := by
  unfold getCol dropCol
  rw [find?_filter_ne df name nm h]

theorem not_mem_fst_dropCol (df : DF) (name : String) :
    name ∉ (dropCol df name).map Prod.fst := by
  intro h
  obtain ⟨c, hc, rfl⟩ := List.mem_map.mp h
  have := List.of_mem_filter hc
  simp at this

theorem mem_fst_dropCol (df : DF) (name nm : String) (h : nm ∈ df.map Prod.fst)
    (hne : nm ≠ name) : nm ∈ (dropCol df name).map Prod.fst := by
  obtain ⟨c, hc, rfl⟩ := List.mem_map.mp h
  refine List.mem_map.mpr ⟨c, List.mem_filter.mpr ⟨hc, ?_⟩, rfl⟩
  simpa using hne

theorem length_dropCol (df : DF) (name : String) :
    (dropCol df name).length + (df.map Prod.fst).count name = df.length := by
  induction df with
  | nil => rfl
  | cons c cs ih =>
      unfold dropCol at ih ⊢
      by_cases h : (c.1 == name) = true
      · have h2 : (c.1 != name) = false := by simp [beq_iff_eq.mp h]
        simp only [List.filter_cons, h2, Bool.false_eq_true, if_false, List.map_cons,
          List.count_cons, h, if_pos, List.length_cons]
        omega
      · have h2 : (c.1 != name) = true := by simpa using h
        simp only [List.filter_cons, h2, if_pos, List.map_cons, List.count_cons, h,
          Bool.false_eq_true, if_false, List.length_cons]
        omega

theorem nRows_eq_of_WFn (df : DF) (n : Nat) (hw : WFn df n) (hne : df ≠ []) :
    nRows df = n := by
  cases df with
  | nil => exact absurd rfl hne
  | cons c cs => exact hw c (List.mem_cons_self _ _)

theorem ne_nil_of_mem_fst (df : DF) (name : String) (h : name ∈ df.map Prod.fst) :
    df ≠ [] := by
  intro he
  subst he
  simp at h

theorem setCol_dt_step (df : DF) (name : String) (g : Value → Value) (n : Nat)
    (hw : WFn df n) (hdm : "date" ∈ df.map Prod.fst) (hne : name ≠ "date") :
    WFn (setCol df name ((getCol df "date").map g)) n ∧
    "date" ∈ (setCol df name ((getCol df "date").map g)).map Prod.fst ∧
    ((setCol df name ((getCol df "date").map g)).map Prod.fst).count "date" =
      (df.map Prod.fst).count "date" := by
  refine ⟨WFn_setCol _ _ _ _ hw ?_, mem_fst_setCol_of_mem _ _ _ _ hdm,
    count_fst_setCol _ _ _ _ hne⟩
  rw [List.length_map]
  exact getCol_length_of_WFn df "date" n hw hdm

/-- C5: for every input table with a "date" column, `_encode_dates` returns a
table with exactly as many rows as the input (every column keeps the input's
row count, in both modes), and drop_date=true yields exactly one column fewer
than drop_date=false, the removed column being the original "date" column. -/
theorem encode_dates_c5 (X : DF) (n : Nat) (hw : WFn X n)
    (hd : ((X.map Prod.fst).count "date") = 1) :
    WFn (encode_dates X true) n ∧ WFn (encode_dates X false) n ∧
    nRows (encode_dates X true) = nRows X ∧
    nRows (encode_dates X false) = nRows X ∧
    nCols (encode_dates X false) = nCols (encode_dates X true) + 1 ∧
    encode_dates X true = dropCol (encode_dates X false) "date" ∧
    "date" ∉ (encode_dates X true).map Prod.fst ∧
    "date" ∈ (encode_dates X false).map Prod.fst := by
  have hdm : "date" ∈ X.map Prod.fst := List.count_pos_iff.mp (by omega)
  have h1 := setCol_dt_step X "year" dtYear n hw hdm (by decide)
  have h2 := setCol_dt_step _ "month" dtMonth n h1.1 h1.2.1 (by decide)
  have h3 := setCol_dt_step _ "day" dtDay n h2.1 h2.2.1 (by decide)
  have h4 := setCol_dt_step _ "weekday" dtWeekday n h3.1 h3.2.1 (by decide)
  have h5 := setCol_dt_step _ "hour" dtHour n h4.1 h4.2.1 (by decide)
  have hwfalse : WFn (encode_dates X false) n := h5.1
  have hdmfalse : "date" ∈ (encode_dates X false).map Prod.fst := h5.2.1
  have hcount : ((encode_dates X false).map Prod.fst).count "date" = 1 := by
    have := h5.2.2.trans (h4.2.2.trans (h3.2.2.trans (h2.2.2.trans h1.2.2)))
    exact this.trans hd
  have hhour : "hour" ∈ (encode_dates X false).map Prod.fst :=
    mem_fst_setCol_self _ "hour" _
  have hXne : X ≠ [] := ne_nil_of_mem_fst X "date" hdm
  have htrue : encode_dates X true = dropCol (encode_dates X false) "date" := rfl
  refine ⟨?_, hwfalse, ?_, ?_, ?_, htrue, ?_, hdmfalse⟩
  · rw [htrue]
    exact WFn_dropCol _ "date" n hwfalse
  · rw [htrue, nRows_eq_of_WFn X n hw hXne]
    refine nRows_eq_of_WFn _ n (WFn_dropCol _ "date" n hwfalse) ?_
    exact ne_nil_of_mem_fst _ "hour" (mem_fst_dropCol _ "date" "hour" hhour (by decide))
  · rw [nRows_eq_of_WFn X n hw hXne]
    exact nRows_eq_of_WFn _ n hwfalse (ne_nil_of_mem_fst _ "date" hdmfalse)
  · rw [htrue]
    have := length_dropCol (encode_dates X false) "date"
    rw [hcount] at this
    unfold nCols
    omega
  · rw [htrue]
    exact not_mem_fst_dropCol _ "date"

theorem encode_dates_c5_witness :
    WFn (encode_dates [("date", [Value.vDate ⟨2021, 6, 1, 5⟩]),
        ("counter_name", [Value.vStr "s"])] true) 1 ∧
    WFn (encode_dates [("date", [Value.vDate ⟨2021, 6, 1, 5⟩]),
        ("counter_name", [Value.vStr "s"])] false) 1 ∧
    nRows (encode_dates [("date", [Value.vDate ⟨2021, 6, 1, 5⟩]),
        ("counter_name", [Value.vStr "s"])] true) =
      nRows [("date", [Value.vDate ⟨2021, 6, 1, 5⟩]), ("counter_name", [Value.vStr "s"])] ∧
    nRows (encode_dates [("date", [Value.vDate ⟨2021, 6, 1, 5⟩]),
        ("counter_name", [Value.vStr "s"])] false) =
      nRows [("date", [Value.vDate ⟨2021, 6, 1, 5⟩]), ("counter_name", [Value.vStr "s"])] ∧
    nCols (encode_dates [("date", [Value.vDate ⟨2021, 6, 1, 5⟩]),
        ("counter_name", [Value.vStr "s"])] false) =
      nCols (encode_dates [("date", [Value.vDate ⟨2021, 6, 1, 5⟩]),
        ("counter_name", [Value.vStr "s"])] true) + 1 ∧
    encode_dates [("date", [Value.vDate ⟨2021, 6, 1, 5⟩]),
        ("counter_name", [Value.vStr "s"])] true =
      dropCol (encode_dates [("date", [Value.vDate ⟨2021, 6, 1, 5⟩]),
        ("counter_name", [Value.vStr "s"])] false) "date" ∧
    "date" ∉ (encode_dates [("date", [Value.vDate ⟨2021, 6, 1, 5⟩]),
        ("counter_name", [Value.vStr "s"])] true).map Prod.fst ∧
    "date" ∈ (encode_dates [("date", [Value.vDate ⟨2021, 6, 1, 5⟩]),
        ("counter_name", [Value.vStr "s"])] false).map Prod.fst :=
  encode_dates_c5 [("date", [Value.vDate ⟨2021, 6, 1, 5⟩]),
    ("counter_name", [Value.vStr "s"])] 1
    (by decide) (by decide)

/-! ## Lemmas: the date-feature enricher -/

theorem dateLe_year_le (a b : DateOnly) (h : dateLe a b = true) : a.year ≤ b.year := by
  unfold dateLe at h
  simp only [Bool.or_eq_true, Bool.and_eq_true, decide_eq_true_eq, beq_iff_eq] at h
  rcases h with h | ⟨h, _⟩ <;> omega

theorem mem_datesOfYear (y : Nat) (x : DateOnly) :
    x ∈ datesOfYear y ↔ x.year = y ∧ ValidDate x := by
  obtain ⟨xy, xm, xd⟩ := x
  unfold datesOfYear ValidDate
  simp only [List.mem_flatMap, List.mem_map, List.mem_range]
  constructor
  · rintro ⟨m0, hm0, d0, hd0, heq⟩
    simp only [DateOnly.mk.injEq] at heq
    obtain ⟨rfl, rfl, rfl⟩ := heq
    exact ⟨rfl, by omega, by omega, by omega, by omega⟩
  · rintro ⟨rfl, h1, h2, h3, h4⟩
    refine ⟨xm - 1, by omega, xd - 1, ?_, ?_⟩
    · have h5 : xm - 1 + 1 = xm := by omega
      rw [h5]
      omega
    · have h5 : xm - 1 + 1 = xm := by omega
      have h6 : xd - 1 + 1 = xd := by omega
      rw [h5, h6]

theorem mem_dateRange (s e x : DateOnly) (hse : s.year ≤ e.year) :
    x ∈ dateRange s e ↔ ValidDate x ∧ dateLe s x = true ∧ dateLe x e = true := by
  unfold dateRange
  rw [List.mem_filter]
  simp only [List.mem_flatMap, List.mem_range, Bool.and_eq_true]
  constructor
  · rintro ⟨⟨k, hk, hmem⟩, h1, h2⟩
    exact ⟨((mem_datesOfYear _ x).mp hmem).2, h1, h2⟩
  · rintro ⟨hv, h1, h2⟩
    have hy1 : s.year ≤ x.year := dateLe_year_le _ _ h1
    have hy2 : x.year ≤ e.year := dateLe_year_le _ _ h2
    refine ⟨⟨x.year - s.year, by omega, (mem_datesOfYear _ x).mpr ⟨by omega, hv⟩⟩, h1, h2⟩

theorem covid_iff (t : Timestamp) (hv : ValidDate t.dateOnly) :
    get_covid_data (Value.vDate t) = Value.vBool true ↔
      ((dateLe ⟨2020, 10, 30⟩ t.dateOnly = true ∧
        dateLe t.dateOnly ⟨2020, 12, 15⟩ = true) ∨
       (dateLe ⟨2021, 3, 20⟩ t.dateOnly = true ∧
        dateLe t.dateOnly ⟨2021, 6, 9⟩ = true)) := by
  unfold get_covid_data lockdownDates
  simp only [Value.vBool.injEq, decide_eq_true_eq, List.mem_append]
  rw [mem_dateRange _ _ _ (by decide), mem_dateRange _ _ _ (by decide)]
  constructor
  · rintro (⟨_, h1, h2⟩ | ⟨_, h1, h2⟩)
    · exact Or.inl ⟨h1, h2⟩
    · exact Or.inr ⟨h1, h2⟩
  · rintro (⟨h1, h2⟩ | ⟨h1, h2⟩)
    · exact Or.inl ⟨hv, h1, h2⟩
    · exact Or.inr ⟨hv, h1, h2⟩

theorem adv_season_col (pubH : Nat → List DateOnly) (schH : Nat → List (DateOnly × SchoolRec))
    (X : DF) (dd hn : Bool) :
    getCol (additional_date_variables pubH schH X dd hn) "season" =
      (getCol X "date").map seasonVal := by
  unfold additional_date_variables
  cases dd <;> cases hn <;> simp only [if_pos rfl, if_neg Bool.false_ne_true, if_true] <;>
    first
    | rw [getCol_setCol_ne _ "covid_lockdown" "season" _ (by decide),
        getCol_setCol_ne _ "school_holiday" "season" _ (by decide),
        getCol_setCol_ne _ "public_holiday" "season" _ (by decide),
        getCol_setCol_self]
    | rw [getCol_setCol_ne _ "covid_lockdown" "season" _ (by decide),
        getCol_setCol_ne _ "school_holiday_name" "season" _ (by decide),
        getCol_setCol_ne _ "public_holiday" "season" _ (by decide),
        getCol_setCol_self]
    | rw [getCol_dropCol_ne _ "date" "season" (by decide),
        getCol_setCol_ne _ "covid_lockdown" "season" _ (by decide),
        getCol_setCol_ne _ "school_holiday" "season" _ (by decide),
        getCol_setCol_ne _ "public_holiday" "season" _ (by decide),
        getCol_setCol_self]
    | rw [getCol_dropCol_ne _ "date" "season" (by decide),
        getCol_setCol_ne _ "covid_lockdown" "season" _ (by decide),
        getCol_setCol_ne _ "school_holiday_name" "season" _ (by decide),
        getCol_setCol_ne _ "public_holiday" "season" _ (by decide),
        getCol_setCol_self]

theorem adv_covid_col (pubH : Nat → List DateOnly) (schH : Nat → List (DateOnly × SchoolRec))
    (X : DF) (dd hn : Bool) :
    getCol (additional_date_variables pubH schH X dd hn) "covid_lockdown" =
      (getCol X "date").map get_covid_data := by
  unfold additional_date_variables
  cases dd <;> cases hn <;> simp only [if_pos rfl, if_neg Bool.false_ne_true, if_true] <;>
    first
    | rw [getCol_setCol_self,
        getCol_setCol_ne _ "school_holiday" "date" _ (by decide),
        getCol_setCol_ne _ "public_holiday" "date" _ (by decide),
        getCol_setCol_ne _ "season" "date" _ (by decide)]
    | rw [getCol_setCol_self,
        getCol_setCol_ne _ "school_holiday_name" "date" _ (by decide),
        getCol_setCol_ne _ "public_holiday" "date" _ (by decide),
        getCol_setCol_ne _ "season" "date" _ (by decide)]
    | rw [getCol_dropCol_ne _ "date" "covid_lockdown" (by decide),
        getCol_setCol_self,
        getCol_setCol_ne _ "school_holiday" "date" _ (by decide),
        getCol_setCol_ne _ "public_holiday" "date" _ (by decide),
        getCol_setCol_ne _ "season" "date" _ (by decide)]
    | rw [getCol_dropCol_ne _ "date" "covid_lockdown" (by decide),
        getCol_setCol_self,
        getCol_setCol_ne _ "school_holiday_name" "date" _ (by decide),
        getCol_setCol_ne _ "public_holiday" "date" _ (by decide),
        getCol_setCol_ne _ "season" "date" _ (by decide)]

theorem adv_public_col (pubH : Nat → List DateOnly) (schH : Nat → List (DateOnly × SchoolRec))
    (X : DF) (dd hn : Bool) :
    getCol (additional_date_variables pubH schH X dd hn) "public_holiday" =
      (getCol X "date").map
        (isinDates ((yearsOf (getCol X "date")).flatMap pubH)) := by
  unfold additional_date_variables
  cases dd <;> cases hn <;> simp only [if_pos rfl, if_neg Bool.false_ne_true, if_true] <;>
    first
    | rw [getCol_setCol_ne _ "covid_lockdown" "public_holiday" _ (by decide),
        getCol_setCol_ne _ "school_holiday" "public_holiday" _ (by decide),
        getCol_setCol_self,
        getCol_setCol_ne _ "season" "date" _ (by decide)]
    | rw [getCol_setCol_ne _ "covid_lockdown" "public_holiday" _ (by decide),
        getCol_setCol_ne _ "school_holiday_name" "public_holiday" _ (by decide),
        getCol_setCol_self,
        getCol_setCol_ne _ "season" "date" _ (by decide)]
    | rw [getCol_dropCol_ne _ "date" "public_holiday" (by decide),
        getCol_setCol_ne _ "covid_lockdown" "public_holiday" _ (by decide),
        getCol_setCol_ne _ "school_holiday" "public_holiday" _ (by decide),
        getCol_setCol_self,
        getCol_setCol_ne _ "season" "date" _ (by decide)]
    | rw [getCol_dropCol_ne _ "date" "public_holiday" (by decide),
        getCol_setCol_ne _ "covid_lockdown" "public_holiday" _ (by decide),
        getCol_setCol_ne _ "school_holiday_name" "public_holiday" _ (by decide),
        getCol_setCol_self,
        getCol_setCol_ne _ "season" "date" _ (by decide)]

theorem adv_school_bool_col (pubH : Nat → List DateOnly)
    (schH : Nat → List (DateOnly × SchoolRec)) (X : DF) (dd : Bool) :
    getCol (additional_date_variables pubH schH X dd false) "school_holiday" =
      (getCol X "date").map (isinDates
        (((((yearsOf (getCol X "date")).flatMap schH).filter
          (fun p => p.2.vacances_zone_c)).map (fun p => p.1)))) := by
  unfold additional_date_variables
  cases dd <;> simp only [if_pos rfl, if_neg Bool.false_ne_true, if_true] <;>
    first
    | rw [getCol_setCol_ne _ "covid_lockdown" "school_holiday" _ (by decide),
        getCol_setCol_self,
        getCol_setCol_ne _ "public_holiday" "date" _ (by decide),
        getCol_setCol_ne _ "season" "date" _ (by decide)]
    | rw [getCol_dropCol_ne _ "date" "school_holiday" (by decide),
        getCol_setCol_ne _ "covid_lockdown" "school_holiday" _ (by decide),
        getCol_setCol_self,
        getCol_setCol_ne _ "public_holiday" "date" _ (by decide),
        getCol_setCol_ne _ "season" "date" _ (by decide)]

theorem adv_school_name_col (pubH : Nat → List DateOnly)
    (schH : Nat → List (DateOnly × SchoolRec)) (X : DF) (dd : Bool) :
    getCol (additional_date_variables pubH schH X dd true) "school_holiday_name" =
      (getCol X "date").map (mapDateDict
        ((((yearsOf (getCol X "date")).flatMap schH).filter
          (fun p => p.2.vacances_zone_c)).map
            (fun p => (p.1, normalizeHolidayName p.2.nom_vacances)))) := by
  unfold additional_date_variables
  cases dd <;> simp only [if_pos rfl, if_neg Bool.false_ne_true, if_true] <;>
    first
    | rw [getCol_setCol_ne _ "covid_lockdown" "school_holiday_name" _ (by decide),
        getCol_setCol_self,
        getCol_setCol_ne _ "public_holiday" "date" _ (by decide),
        getCol_setCol_ne _ "season" "date" _ (by decide)]
    | rw [getCol_dropCol_ne _ "date" "school_holiday_name" (by decide),
        getCol_setCol_ne _ "covid_lockdown" "school_holiday_name" _ (by decide),
        getCol_setCol_self,
        getCol_setCol_ne _ "public_holiday" "date" _ (by decide),
        getCol_setCol_ne _ "season" "date" _ (by decide)]

/-- C6: the season column produced by `_additional_date_variables` is the
month's image under the `seasons` dict — a pure deterministic function of the
record's month — with months 12, 1, 2 mapping to "winter", 3, 4, 5 to
"spring", 6, 7, 8 to "summer" and 9, 10, 11 to "autumn"; in particular
month 1 gives "winter" and month 6 gives "summer". -/
theorem season_c6 (pubH : Nat → List DateOnly) (schH : Nat → List (DateOnly × SchoolRec))
    (X : DF) (dd hn : Bool) :
    getCol (additional_date_variables pubH schH X dd hn) "season" =
      (getCol X "date").map seasonVal ∧
    (∀ t u : Timestamp, t.month = u.month →
      seasonVal (Value.vDate t) = seasonVal (Value.vDate u)) ∧
    (∀ t : Timestamp, t.month = 12 ∨ t.month = 1 ∨ t.month = 2 →
      seasonVal (Value.vDate t) = Value.vStr "winter") ∧
    (∀ t : Timestamp, t.month = 3 ∨ t.month = 4 ∨ t.month = 5 →
      seasonVal (Value.vDate t) = Value.vStr "spring") ∧
    (∀ t : Timestamp, t.month = 6 ∨ t.month = 7 ∨ t.month = 8 →
      seasonVal (Value.vDate t) = Value.vStr "summer") ∧
    (∀ t : Timestamp, t.month = 9 ∨ t.month = 10 ∨ t.month = 11 →
      seasonVal (Value.vDate t) = Value.vStr "autumn") := by
  refine ⟨adv_season_col pubH schH X dd hn, ?_, ?_, ?_, ?_, ?_⟩
  · intro t u h
    simp [seasonVal, h]
  all_goals intro t h
  all_goals rcases h with h | h | h <;> simp [seasonVal, seasons, h]

theorem season_c6_witness :
    seasonVal (Value.vDate ⟨2021, 1, 15, 10⟩) = Value.vStr "winter" ∧
    seasonVal (Value.vDate ⟨2021, 6, 1, 5⟩) = Value.vStr "summer" :=
  ⟨(season_c6 (fun _ => []) (fun _ => []) [] false false).2.2.1 ⟨2021, 1, 15, 10⟩
      (Or.inr (Or.inl rfl)),
    (season_c6 (fun _ => []) (fun _ => []) [] false false).2.2.2.2.1 ⟨2021, 6, 1, 5⟩
      (Or.inl rfl)⟩

/-- C7: the covid_lockdown flag produced by `_additional_date_variables` via
`get_covid_data` is the image of the date column under a day-granularity test:
for every record with a valid calendar date it is true exactly when the
calendar date, regardless of time of day, lies in 2020-10-30..2020-12-15 or
2021-03-20..2021-06-09, both inclusive; in particular any record dated
2020-11-15 gets true and any record dated 2021-01-01 gets false. -/
theorem covid_c7 (pubH : Nat → List DateOnly) (schH : Nat → List (DateOnly × SchoolRec))
    (X : DF) (dd hn : Bool) :
    getCol (additional_date_variables pubH schH X dd hn) "covid_lockdown" =
      (getCol X "date").map get_covid_data ∧
    (∀ t : Timestamp, ValidDate t.dateOnly →
      (get_covid_data (Value.vDate t) = Value.vBool true ↔
        ((dateLe ⟨2020, 10, 30⟩ t.dateOnly = true ∧
          dateLe t.dateOnly ⟨2020, 12, 15⟩ = true) ∨
         (dateLe ⟨2021, 3, 20⟩ t.dateOnly = true ∧
          dateLe t.dateOnly ⟨2021, 6, 9⟩ = true)))) ∧
    (∀ h : Nat, get_covid_data (Value.vDate ⟨2020, 11, 15, h⟩) = Value.vBool true) ∧
    (∀ h : Nat, get_covid_data (Value.vDate ⟨2021, 1, 1, h⟩) = Value.vBool false) := by
  refine ⟨adv_covid_col pubH schH X dd hn, covid_iff, fun h => rfl, fun h => rfl⟩

theorem covid_c7_witness :
    get_covid_data (Value.vDate ⟨2020, 11, 15, 7⟩) = Value.vBool true ↔
      ((dateLe ⟨2020, 10, 30⟩ (Timestamp.dateOnly ⟨2020, 11, 15, 7⟩) = true ∧
        dateLe (Timestamp.dateOnly ⟨2020, 11, 15, 7⟩) ⟨2020, 12, 15⟩ = true) ∨
       (dateLe ⟨2021, 3, 20⟩ (Timestamp.dateOnly ⟨2020, 11, 15, 7⟩) = true ∧
        dateLe (Timestamp.dateOnly ⟨2020, 11, 15, 7⟩) ⟨2021, 6, 9⟩ = true)) :=
  (covid_c7 (fun _ => []) (fun _ => []) [] false false).2.1 ⟨2020, 11, 15, 7⟩ (by decide)

/-- C8 is contradicted by the embedded code: `Series.isin` compares the
datetime64 column against the `datetime.date` holiday values by coercing the
dates to midnight timestamps, so a record falling on a holiday day but with a
nonzero time of day gets false for public_holiday (and likewise for
school_holiday), where the claim demands true regardless of time of day.
Concretely, with the 2021 calendars holding Bastille Day 2021-07-14 and a
zone-C school holiday on 2021-02-20, the records at 10:00 on those days get
false while only the midnight records are flagged. -/
theorem holiday_c8_bug :
    getCol (additional_date_variables
        (fun y => if y = 2021 then [⟨2021, 7, 14⟩] else [])
        (fun y => if y = 2021 then [(⟨2021, 2, 20⟩, ⟨"vacances_d_hiver", true⟩)] else [])
        [("date", [Value.vDate ⟨2021, 7, 14, 10⟩, Value.vDate ⟨2021, 7, 14, 0⟩,
          Value.vDate ⟨2021, 2, 20, 10⟩, Value.vDate ⟨2021, 2, 20, 0⟩])]
        false false) "public_holiday" =
      [Value.vBool false, Value.vBool true, Value.vBool false, Value.vBool false] ∧
    getCol (additional_date_variables
        (fun y => if y = 2021 then [⟨2021, 7, 14⟩] else [])
        (fun y => if y = 2021 then [(⟨2021, 2, 20⟩, ⟨"vacances_d_hiver", true⟩)] else [])
        [("date", [Value.vDate ⟨2021, 7, 14, 10⟩, Value.vDate ⟨2021, 7, 14, 0⟩,
          Value.vDate ⟨2021, 2, 20, 10⟩, Value.vDate ⟨2021, 2, 20, 0⟩])]
        false false) "school_holiday" =
      [Value.vBool false, Value.vBool false, Value.vBool false, Value.vBool true] :=
  ⟨by decide, by decide⟩

/-- C10: with holiday_names=true, a record whose calendar date is not a zone-C
school-holiday date receives a missing value (null) in the
school_holiday_name column — not false and not an empty string — while with
holiday_names=false every such record receives the boolean false in the
school_holiday column; null and false are distinct values, so the two modes
mark non-holiday records differently. -/
theorem school_modes_c10 (pubH : Nat → List DateOnly)
    (schH : Nat → List (DateOnly × SchoolRec)) (X : DF) (dd : Bool) :
    getCol (additional_date_variables pubH schH X dd true) "school_holiday_name" =
      (getCol X "date").map (mapDateDict
        ((((yearsOf (getCol X "date")).flatMap schH).filter
          (fun p => p.2.vacances_zone_c)).map
            (fun p => (p.1, normalizeHolidayName p.2.nom_vacances)))) ∧
    getCol (additional_date_variables pubH schH X dd false) "school_holiday" =
      (getCol X "date").map (isinDates
        ((((yearsOf (getCol X "date")).flatMap schH).filter
          (fun p => p.2.vacances_zone_c)).map (fun p => p.1))) ∧
    (∀ t : Timestamp,
      t.dateOnly ∉ (((yearsOf (getCol X "date")).flatMap schH).filter
          (fun p => p.2.vacances_zone_c)).map (fun p => p.1) →
      mapDateDict ((((yearsOf (getCol X "date")).flatMap schH).filter
          (fun p => p.2.vacances_zone_c)).map
            (fun p => (p.1, normalizeHolidayName p.2.nom_vacances))) (Value.vDate t) =
        Value.vNull ∧
      isinDates ((((yearsOf (getCol X "date")).flatMap schH).filter
          (fun p => p.2.vacances_zone_c)).map (fun p => p.1)) (Value.vDate t) =
        Value.vBool false) ∧
    Value.vNull ≠ Value.vBool false := by
  refine ⟨adv_school_name_col pubH schH X dd, adv_school_bool_col pubH schH X dd,
    ?_, by decide⟩
  intro t hmem
  constructor
  · simp only [mapDateDict]
    have hnone : ((((yearsOf (getCol X "date")).flatMap schH).filter
        (fun p => p.2.vacances_zone_c)).map
          (fun p => (p.1, normalizeHolidayName p.2.nom_vacances))).find?
        (fun p => t.hour == 0 && p.1 == t.dateOnly) = none := by
      rw [List.find?_eq_none]
      intro p hp hb
      obtain ⟨q, hq, rfl⟩ := List.mem_map.mp hp
      simp only [Bool.and_eq_true, beq_iff_eq] at hb
      exact hmem (List.mem_map.mpr ⟨q, hq, hb.2⟩)
    rw [hnone]
  · unfold isinDates
    simp [hmem]

theorem school_modes_c10_witness :
    mapDateDict [(⟨2021, 2, 20⟩, "noel")] (Value.vDate ⟨2021, 1, 4, 8⟩) = Value.vNull ∧
    isinDates [⟨2021, 2, 20⟩] (Value.vDate ⟨2021, 1, 4, 8⟩) = Value.vBool false :=
  (school_modes_c10 (fun _ => [])
    (fun y => if y = 2021 then [(⟨2021, 2, 20⟩, ⟨"noel", true⟩)] else [])
    [("date", [Value.vDate ⟨2021, 1, 4, 8⟩])] false).2.2.1 ⟨2021, 1, 4, 8⟩ (by decide)

/-! ## Lemmas: the object heap -/

theorem getD_append_lt {α : Type} (l rest : List α) (i : Nat) (d : α)
    (h : i < l.length) : (l ++ rest).getD i d = l.getD i d := by
  unfold List.getD
  rw [List.get?_append h]

theorem getD_append_self {α : Type} (l : List α) (w : α) (rest : List α) (d : α) :
    (l ++ w :: rest).getD l.length d = w := by
  induction l with
  | nil => rfl
  | cons a as ih => simpa using ih

theorem getD_append_succ {α : Type} (l : List α) (w : α) (rest : List α) (i : Nat)
    (d : α) : (l ++ w :: rest).getD (l.length + i + 1) d = rest.getD i d := by
  induction l with
  | nil =>
      simp only [List.nil_append, List.length_nil, Nat.zero_add, List.getD_cons_succ]
  | cons a as ih =>
      have : (a :: as).length + i + 1 = (as.length + i + 1) + 1 := by
        simp
        omega
      rw [this]
      simpa using ih

theorem set_append_self {α : Type} (l : List α) (w : α) (rest : List α) (v : α) :
    (l ++ w :: rest).set l.length v = l ++ v :: rest := by
  induction l with
  | nil => rfl
  | cons a as ih => simpa using ih

theorem getD_append_snd {α : Type} (l : List α) (w v : α) (d : α) :
    (l ++ [w, v]).getD (l.length + 1) d = v := by
  induction l with
  | nil => rfl
  | cons a as ih => simpa using ih

theorem len_lt_append_singleton {α : Type} (l : List α) (w : α) :
    l.length < (l ++ [w]).length := by
  simp

theorem lt_len_append_singleton {α : Type} (l : List α) (w : α) (i : Nat)
    (h : i < l.length) : i < (l ++ [w]).length := by
  simp
  omega

theorem encodeDatesH_spec (σ : PState DF) (x : Nat) (dd : Bool)
    (hx : x < σ.objs.length) :
    readObj (encodeDatesH σ x dd).1 x [] = readObj σ x [] ∧
    (encodeDatesH σ x dd).2 ≠ x ∧
    readObj (encodeDatesH σ x dd).1 (encodeDatesH σ x dd).2 [] =
      encode_dates (readObj σ x []) dd := by
  obtain ⟨objs⟩ := σ
  simp only at hx
  cases dd <;>
    simp only [encodeDatesH, alloc, writeObj, readObj, encode_dates,
      if_pos rfl, if_neg Bool.false_ne_true, if_true,
      getD_append_self, set_append_self, List.append_assoc, List.cons_append,
      List.nil_append, List.length_append, List.length_cons, List.length_nil] <;>
    refine ⟨getD_append_lt _ _ _ _ hx, by omega, ?_⟩
  · trivial
  · rw [getD_append_snd]

theorem additionalDateVariablesH_spec (pubH : Nat → List DateOnly)
    (schH : Nat → List (DateOnly × SchoolRec)) (σ : PState DF) (x : Nat)
    (dd hn : Bool) (hx : x < σ.objs.length) :
    readObj (additionalDateVariablesH pubH schH σ x dd hn).1 x [] = readObj σ x [] ∧
    (additionalDateVariablesH pubH schH σ x dd hn).2 ≠ x ∧
    readObj (additionalDateVariablesH pubH schH σ x dd hn).1
        (additionalDateVariablesH pubH schH σ x dd hn).2 [] =
      additional_date_variables pubH schH (readObj σ x []) dd hn := by
  obtain ⟨objs⟩ := σ
  simp only at hx
  cases dd <;> cases hn <;>
    simp only [additionalDateVariablesH, additional_date_variables, alloc, writeObj,
      readObj, if_pos rfl, if_neg Bool.false_ne_true, if_true,
      getD_append_self, set_append_self, List.append_assoc, List.cons_append,
      List.nil_append, List.length_append, List.length_cons, List.length_nil] <;>
    refine ⟨getD_append_lt _ _ _ _ hx, by omega, ?_⟩
  · trivial
  · trivial
  · rw [getD_append_snd]
  · rw [getD_append_snd]

theorem mergeExternalDataH_spec (σ : PState MObj) (x : Nat) (ext : List (Nat × Nat))
    (hx : x < σ.objs.length) :
    readObj (mergeExternalDataH σ x ext).1 x (MObj.plain []) =
      readObj σ x (MObj.plain []) ∧
    (mergeExternalDataH σ x ext).2 ≠ x ∧
    readObj (mergeExternalDataH σ x ext).1 (mergeExternalDataH σ x ext).2
        (MObj.plain []) =
      MObj.final (merge_external_data ext
        (readObj σ x (MObj.plain [])).plainRows) := by
  obtain ⟨objs⟩ := σ
  simp only at hx
  simp only [mergeExternalDataH, merge_external_data, alloc, writeObj, readObj,
    MObj.plainRows, getD_append_self, set_append_self, getD_append_lt,
    lt_len_append_singleton, len_lt_append_singleton, hx]
  refine ⟨?_, ?_, trivial⟩
  · exact (getD_append_lt _ _ _ _ (lt_len_append_singleton _ _ _
        (lt_len_append_singleton _ _ _ (lt_len_append_singleton _ _ _
          (lt_len_append_singleton _ _ _ hx))))).trans
      ((getD_append_lt _ _ _ _ (lt_len_append_singleton _ _ _
        (lt_len_append_singleton _ _ _ (lt_len_append_singleton _ _ _ hx)))).trans
      ((getD_append_lt _ _ _ _ (lt_len_append_singleton _ _ _
        (lt_len_append_singleton _ _ _ hx))).trans
      ((getD_append_lt _ _ _ _ (lt_len_append_singleton _ _ _ hx)).trans
      (getD_append_lt _ _ _ _ hx))))
  · simp only [List.length_append, List.length_cons, List.length_nil]
    omega

/-- C9: `_encode_dates`, `_additional_date_variables` and
`_merge_external_data` are immutable transforms.  Re-traced at the object
level over a heap of mutable frame objects (in-place column writes mutate,
copy / drop / sort / merge allocate), each call leaves the frame object passed
in exactly as it was before the call, returns a different object, and the
returned object holds the value of the corresponding pure transform of the
input. -/
theorem transforms_immutable_c9 :
    (∀ (σ : PState DF) (x : Nat) (dd : Bool), x < σ.objs.length →
      readObj (encodeDatesH σ x dd).1 x [] = readObj σ x [] ∧
      (encodeDatesH σ x dd).2 ≠ x ∧
      readObj (encodeDatesH σ x dd).1 (encodeDatesH σ x dd).2 [] =
        encode_dates (readObj σ x []) dd) ∧
    (∀ (pubH : Nat → List DateOnly) (schH : Nat → List (DateOnly × SchoolRec))
      (σ : PState DF) (x : Nat) (dd hn : Bool), x < σ.objs.length →
      readObj (additionalDateVariablesH pubH schH σ x dd hn).1 x [] = readObj σ x [] ∧
      (additionalDateVariablesH pubH schH σ x dd hn).2 ≠ x ∧
      readObj (additionalDateVariablesH pubH schH σ x dd hn).1
          (additionalDateVariablesH pubH schH σ x dd hn).2 [] =
        additional_date_variables pubH schH (readObj σ x []) dd hn) ∧
    (∀ (σ : PState MObj) (x : Nat) (ext : List (Nat × Nat)), x < σ.objs.length →
      readObj (mergeExternalDataH σ x ext).1 x (MObj.plain []) =
        readObj σ x (MObj.plain []) ∧
      (mergeExternalDataH σ x ext).2 ≠ x ∧
      readObj (mergeExternalDataH σ x ext).1 (mergeExternalDataH σ x ext).2
          (MObj.plain []) =
        MObj.final (merge_external_data ext
          (readObj σ x (MObj.plain [])).plainRows)) :=
  ⟨fun σ x dd h => encodeDatesH_spec σ x dd h,
   fun pubH schH σ x dd hn h => additionalDateVariablesH_spec pubH schH σ x dd hn h,
   fun σ x ext h => mergeExternalDataH_spec σ x ext h⟩

theorem transforms_immutable_c9_witness :
    readObj (encodeDatesH ⟨[[("date", [Value.vDate ⟨2021, 6, 1, 5⟩])]]⟩ 0 true).1 0 [] =
      readObj ⟨[[("date", [Value.vDate ⟨2021, 6, 1, 5⟩])]]⟩ 0 [] ∧
    (encodeDatesH ⟨[[("date", [Value.vDate ⟨2021, 6, 1, 5⟩])]]⟩ 0 true).2 ≠ 0 ∧
    readObj (encodeDatesH ⟨[[("date", [Value.vDate ⟨2021, 6, 1, 5⟩])]]⟩ 0 true).1
        (encodeDatesH ⟨[[("date", [Value.vDate ⟨2021, 6, 1, 5⟩])]]⟩ 0 true).2 [] =
      encode_dates (readObj ⟨[[("date", [Value.vDate ⟨2021, 6, 1, 5⟩])]]⟩ 0 []) true :=
  transforms_immutable_c9.1 ⟨[[("date", [Value.vDate ⟨2021, 6, 1, 5⟩])]]⟩ 0 true
    (by decide)
